import Mathlib

/-!
Shallow embedding of the Monty Hall simulator (`montyhall.py`).

The random source (`numpy.random.Generator`) is embedded as a stream of
natural numbers (`Rng`); `rng.integers(bound)` reads the next stream value
modulo `bound` (raising `ValueError` when `bound = 0`, as numpy does for a
non-positive bound), and `rng.choice(n, k, replace=False)` selects `k`
distinct indices out of `[0, n)` by repeatedly picking from the remaining
pool (raising `ValueError` when `k > n`).  Python exceptions are embedded
as `Except Err`; the unbounded `play` recursion is embedded with explicit
fuel whose exhaustion stands for Python's `RecursionError`.
-/

namespace MontyHall

/-- Python exceptions that the source can raise. -/
inductive Err where
  | valueError
  | typeError
  | nameError
  | indexError
  | recursionError
deriving DecidableEq, Repr

/-- The random source: a stream of naturals, read left to right. -/
abbrev Rng := List Nat

/-- Read one value from the stream (an exhausted stream yields zeros). -/
def nextVal : Rng → Nat × Rng
  | [] => (0, [])
  | v :: r => (v, r)

/-- Embeds `rng.integers(bound)`: a value in `[0, bound)`; numpy raises on a
non-positive bound. -/
def integers (bound : Nat) (r : Rng) : Except Err (Nat × Rng) :=
  if bound = 0 then .error .valueError
  else
    let p := nextVal r
    .ok (p.1 % bound, p.2)

/-- Draw `k` values from a pool, removing each drawn value from the pool. -/
def drawFromPool : List Nat → Nat → Rng → List Nat × Rng
  | _, 0, r => ([], r)
  | pool, Nat.succ k, r =>
    let p := nextVal r
    let i := p.1 % pool.length
    let x := pool.getD i 0
    let rest := drawFromPool (pool.eraseIdx i) k p.2
    (x :: rest.1, rest.2)

/-- Embeds `rng.choice(n, k, replace=False)`: `k` distinct indices from
`[0, n)`; numpy raises when the sample is larger than the population. -/
def choiceNoReplace (n k : Nat) (r : Rng) : Except Err (List Nat × Rng) :=
  if n < k then .error .valueError
  else .ok (drawFromPool (List.range n) k r)

/-- Embeds Python's `req or sample` for an int-or-None request: `None` and
`0` are falsy and trigger the sampling expression. -/
def pyOrSample (req : Option Nat) (sample : Rng → Except Err (Nat × Rng))
    (r : Rng) : Except Err (Nat × Rng) :=
  match req with
  | some v => if v = 0 then sample r else .ok (v, r)
  | none => sample r

/-- Embeds Python's `a or d` for an int-or-None value against an int default. -/
def pyOrNat (a : Option Nat) (d : Nat) : Nat :=
  match a with
  | some v => if v = 0 then d else v
  | none => d

/-- Embeds Python's `a or b` for two int-or-None values. -/
def pyOrOpt (a b : Option Nat) : Option Nat :=
  match a with
  | some v => if v = 0 then b else some v
  | none => b

/-- The `Game` object: one trial's state.  `prizes`/`visible` embed the two
boolean arrays of `self.state`; `args` stores the `(n_doors, n_goats)`
request kept for reinitialization. -/
structure Game where
  minDoors : Nat
  maxDoors : Nat
  rerolls : Nat
  args : Option Nat × Option Nat
  choice : Option Nat
  win : Bool
  nDoors : Nat
  nGoats : Nat
  prizes : List Bool
  visible : List Bool
deriving DecidableEq, Repr

/-- Set the entries of `l` at the indices in `idxs` to `false`
(embeds `self.state['prizes'][goatidxs] = False`). -/
def setFalseAt (l : List Bool) (idxs : List Nat) : List Bool :=
  idxs.foldl (fun a i => a.set i false) l

/-- Embeds `Game.initialize_state(n_doors, n_goats)`: resets choice/win,
stores the request in `args`, fixes or samples `n_doors` and `n_goats`
(Python's `x or sample` treats an explicit `0` as unset), builds all-true
`prizes` and all-false `visible`, then places the goats at distinct
sampled indices. -/
def initState (g : Game) (ndReq ngReq : Option Nat) (r0 : Rng) :
    Except Err (Game × Rng) :=
  match pyOrSample ndReq
      (fun r =>
        match integers (g.maxDoors + 1 - g.minDoors) r with
        | .error e => .error e
        | .ok p => .ok (p.1 + g.minDoors, p.2)) r0 with
  | .error e => .error e
  | .ok (nd, r1) =>
    match pyOrSample ngReq (fun r => integers (nd + 1) r) r1 with
    | .error e => .error e
    | .ok (ng, r2) =>
      match choiceNoReplace nd ng r2 with
      | .error e => .error e
      | .ok (goatidxs, r3) =>
        .ok ({ g with
                choice := none
                win := false
                args := (ndReq, ngReq)
                nDoors := nd
                nGoats := ng
                prizes := setFalseAt (List.replicate nd true) goatidxs
                visible := List.replicate nd false }, r3)

/-- Embeds `Game.__init__`: `min_doors` fixed at 3, `max_doors or 3`,
reroll counter started at 0, then the first `initialize_state`. -/
def mkGame (ndReq ngReq mdReq : Option Nat) (r : Rng) :
    Except Err (Game × Rng) :=
  initState
    { minDoors := 3
      maxDoors := pyOrNat mdReq 3
      rerolls := 0
      args := (ndReq, ngReq)
      choice := none
      win := false
      nDoors := 0
      nGoats := 0
      prizes := []
      visible := [] } ndReq ngReq r

/-- Embeds `prizeviz = np.multiply(visible, prizes); if any(...): index(True)`:
the first door that is both visible and prize-bearing, if one exists. -/
def visiblePrizeIdx (g : Game) : Option Nat :=
  let prizeviz := List.zipWith (fun a b => a && b) g.visible g.prizes
  if prizeviz.any (fun b => b) then some (prizeviz.findIdx (fun b => b))
  else none

/-- Embeds the index comprehension `[idx for idx, v in enumerate(l) if not v]`
used for both candidate pools (non-visible doors, goat doors). -/
def falseIdxs (l : List Bool) : List Nat :=
  (l.enum.filter (fun p => !p.2)).map Prod.fst

/-- The revealed-prize override at the top of `choose`: when some door is
visible and prize-bearing, the choice is moved to the first such door. -/
def chooseBase (g0 : Game) : Game :=
  match visiblePrizeIdx g0 with
  | some i => { g0 with choice := some i }
  | none => g0

/-- Embeds `Game.choose(strategy)`.  First the revealed-prize override sets
the choice; `stay` then returns, `random` samples from the non-visible
pool, `update` first removes the current choice from the pool when present
(the caught `list.remove` failure leaves the pool unmodified) and samples;
an unrecognized strategy falls through all branches and returns unchanged. -/
def choose (g0 : Game) (strategy : String) (r : Rng) :
    Except Err (Game × Rng) :=
  let g := chooseBase g0
  if strategy = "stay" then .ok (g, r)
  else
    let options := falseIdxs g.visible
    if strategy = "random" then
      match integers options.length r with
      | .error e => .error e
      | .ok (i, r1) => .ok ({ g with choice := some (options.getD i 0) }, r1)
    else if strategy = "update" then
      let options1 :=
        match g.choice with
        | some c => if c ∈ options then options.erase c else options
        | none => options
      match integers options1.length r with
      | .error e => .error e
      | .ok (i, r1) => .ok ({ g with choice := some (options1.getD i 0) }, r1)
    else
      .ok (g, r)

/-- Embeds the `goat` reveal pool: goat doors (prize false), with the
current choice removed when it is among them. -/
def goatOptions (g : Game) : List Nat :=
  let options := falseIdxs g.prizes
  match g.choice with
  | some c => if c ∈ options then options.erase c else options
  | none => options

/-- Embeds the `random` reveal pool: every door index except the choice. -/
def revealRandomOptions (g : Game) : List Nat :=
  (List.range g.nDoors).filter (fun idx => !(g.choice == some idx))

/-- Embeds `Game.reveal(strategy)`.  The returned flag is Python's return
value: `true` means reroll-required (`goat` pool empty, state untouched).
Otherwise one sampled pool door is marked visible.  An unsupported
strategy prints a diagnostic and then reads the never-assigned local
`options`, which raises `UnboundLocalError` (a `NameError`). -/
def reveal (g : Game) (strategy : String) (r : Rng) :
    Except Err ((Bool × Game) × Rng) :=
  if strategy = "goat" then
    let options := goatOptions g
    if options.length = 0 then .ok ((true, g), r)
    else
      match integers options.length r with
      | .error e => .error e
      | .ok (i, r1) =>
        .ok ((false, { g with visible := g.visible.set (options.getD i 0) true }), r1)
  else if strategy = "random" then
    let options := revealRandomOptions g
    match integers options.length r with
    | .error e => .error e
    | .ok (i, r1) =>
      .ok ((false, { g with visible := g.visible.set (options.getD i 0) true }), r1)
  else
    .error .nameError

/-- Embeds `Game.play(player, host)`: first choice with `random`, then the
host reveal; a reroll-required reveal bumps the reroll counter,
reinitializes from the stored `args` and retries (the fuel stands for
Python's recursion limit); a successful reveal is followed by the player's
second `choose` and `win = prizes[choice]`.  Indexing `prizes` with an
unset choice cannot happen after a successful `choose('random')`; it is
embedded as an error. -/
def play (g : Game) (player host : String) : Nat → Rng →
    Except Err ((Game × Bool) × Rng)
  | 0, _ => .error .recursionError
  | Nat.succ fuel, r =>
    match choose g "random" r with
    | .error e => .error e
    | .ok (g1, r1) =>
      match reveal g1 host r1 with
      | .error e => .error e
      | .ok ((true, g2), r2) =>
        let g3 := { g2 with rerolls := g2.rerolls + 1 }
        match initState g3 g3.args.1 g3.args.2 r2 with
        | .error e => .error e
        | .ok (g4, r4) => play g4 player host fuel r4
      | .ok ((false, g2), r2) =>
        match choose g2 player r2 with
        | .error e => .error e
        | .ok (g3, r3) =>
          match g3.choice with
          | none => .error .typeError
          | some c =>
            match g3.prizes.get? c with
            | none => .error .indexError
            | some w => .ok (({ g3 with win := w }, w), r3)

/-- The `defaultdict(int)` statistics of a series: the two scalar counters
plus the per-goat-count buckets (`"{ct}_goats"` / `"{ct}_goats_wins"`),
embedded as total maps defaulting to 0. -/
structure Stats where
  win : Nat
  rerolls : Nat
  goats : Nat → Nat
  goatWins : Nat → Nat

/-- A `GameSeries`'s mutable data: trial history and statistics. -/
structure SeriesState where
  history : List Game
  stats : Stats

def emptyStats : Stats := ⟨0, 0, fun _ => 0, fun _ => 0⟩

def emptySeries : SeriesState := ⟨[], emptyStats⟩

/-- The configuration consumed by `GameSeries`. -/
structure Config where
  games : Nat
  nDoors : Option Nat
  nGoats : Option Nat
  maxDoors : Option Nat
  player : String
  host : String

/-- Embeds the `GameSeries.__init__` rewrite of the rules:
`max_doors = max_doors or n_doors`. -/
def effMaxDoors (cfg : Config) : Option Nat := pyOrOpt cfg.maxDoors cfg.nDoors

/-- Embeds the per-trial bucket loop of `simulate`: for each `ct` in
`[0, max_doors]`, bump bucket `ct` by `(ct == n_goats)` and its win bucket
by `(ct == n_goats) and win`. -/
def bumpBuckets (s : Stats) (maxD nGoats : Nat) (win : Bool) : Stats :=
  (List.range (maxD + 1)).foldl
    (fun st ct =>
      { st with
        goats := Function.update st.goats ct
          (st.goats ct + (if ct = nGoats then 1 else 0))
        goatWins := Function.update st.goatWins ct
          (st.goatWins ct + (if ct = nGoats ∧ win then 1 else 0)) })
    s

/-- Embeds one iteration's accumulation in `simulate`: append the finished
game to the history and add its `win` (as 0/1) and `rerolls` to the scalar
counters. -/
def foldTrial (st : SeriesState) (g : Game) : SeriesState :=
  { history := st.history ++ [g]
    stats := { st.stats with
                win := st.stats.win + (if g.win then 1 else 0)
                rerolls := st.stats.rerolls + g.rerolls } }

/-- Embeds the trial loop of `GameSeries.simulate`: each iteration builds a
fresh `Game` from the rules, plays it, folds it into history and counters,
then runs the bucket loop (whose `max_doors + 1` raises a `TypeError` when
the effective `max_doors` is `None`). -/
def simulateLoop (cfg : Config) (fuel : Nat) : Nat → SeriesState → Rng →
    Except Err (SeriesState × Rng)
  | 0, st, r => .ok (st, r)
  | Nat.succ n, st, r =>
    match mkGame cfg.nDoors cfg.nGoats (effMaxDoors cfg) r with
    | .error e => .error e
    | .ok (g, r1) =>
      match play g cfg.player cfg.host fuel r1 with
      | .error e => .error e
      | .ok ((g2, _), r2) =>
        let st1 := foldTrial st g2
        match effMaxDoors cfg with
        | none => .error .typeError
        | some m =>
          simulateLoop cfg fuel n
            { st1 with stats := bumpBuckets st1.stats m g2.nGoats g2.win } r2

/-- Embeds `GameSeries.simulate(n)`: `n = n or self.config['games']`
(both `None` and `0` fall back to the configured trial count). -/
def simulate (cfg : Config) (n : Option Nat) (fuel : Nat)
    (st : SeriesState) (r : Rng) : Except Err (SeriesState × Rng) :=
  simulateLoop cfg fuel (pyOrNat n cfg.games) st r

/-- Count of `true` entries of a boolean sequence. -/
def countTrue (l : List Bool) : Nat := l.countP (fun b => b)

/-- Count of `false` entries of a boolean sequence. -/
def countFalse (l : List Bool) : Nat := l.countP (fun b => !b)

/-- Sum of the goat-count bucket totals over buckets `0 .. maxD`. -/
def bucketSum (s : Stats) (maxD : Nat) : Nat :=
  ((List.range (maxD + 1)).map s.goats).sum

/-- A placeholder game used only as the fallback of run extractors. -/
def dummyGame : Game :=
  ⟨3, 3, 0, (none, none), none, false, 0, 0, [], []⟩

def okGame (x : Except Err (Game × Rng)) : Game :=
  match x with
  | .ok p => p.1
  | .error _ => dummyGame

def okRng (x : Except Err (Game × Rng)) : Rng :=
  match x with
  | .ok p => p.2
  | .error _ => []

def revGame (x : Except Err ((Bool × Game) × Rng)) : Game :=
  match x with
  | .ok p => p.1.2
  | .error _ => dummyGame

def revRng (x : Except Err ((Bool × Game) × Rng)) : Rng :=
  match x with
  | .ok p => p.2
  | .error _ => []

/-- Observables of a finished `play`: goat count, reroll counter, win. -/
def playOutcome (x : Except Err ((Game × Bool) × Rng)) :
    Option (Nat × Nat × Bool) :=
  match x with
  | .ok p => some (p.1.1.nGoats, p.1.1.rerolls, p.1.2)
  | .error _ => none

def playGame (x : Except Err ((Game × Bool) × Rng)) : Game :=
  match x with
  | .ok p => p.1.1
  | .error _ => dummyGame

def playWin (x : Except Err ((Game × Bool) × Rng)) : Bool :=
  match x with
  | .ok p => p.1.2
  | .error _ => false

def playRng (x : Except Err ((Game × Bool) × Rng)) : Rng :=
  match x with
  | .ok p => p.2
  | .error _ => []

/-- Observables of a finished series: the per-trial reroll counters in
history order, and the accumulated `rerolls` counter. -/
def seriesRerolls (x : Except Err (SeriesState × Rng)) :
    Option (List Nat × Nat) :=
  match x with
  | .ok p => some (p.1.history.map Game.rerolls, p.1.stats.rerolls)
  | .error _ => none

/-- Observables of a finished series: the bucket-total sum over buckets
`0 .. maxD` and the number of trials recorded. -/
def seriesBuckets (maxD : Nat) (x : Except Err (SeriesState × Rng)) :
    Option (Nat × Nat) :=
  match x with
  | .ok p => some (bucketSum p.1.stats maxD, p.1.history.length)
  | .error _ => none

def runSeries (x : Except Err (SeriesState × Rng)) : SeriesState :=
  match x with
  | .ok p => p.1
  | .error _ => emptySeries

def runSeriesRng (x : Except Err (SeriesState × Rng)) : Rng :=
  match x with
  | .ok p => p.2
  | .error _ => []

/-- The exception, if any, with which a series run failed. -/
def seriesErr (x : Except Err (SeriesState × Rng)) : Option Err :=
  match x with
  | .ok _ => none
  | .error e => some e

/-- The exception, if any, with which a reveal failed. -/
def revealErr (x : Except Err ((Bool × Game) × Rng)) : Option Err :=
  match x with
  | .ok _ => none
  | .error e => some e

/-- Extracts the choice made by a finished `choose`. -/
def chooseChoice (x : Except Err (Game × Rng)) : Option (Option Nat) :=
  match x with
  | .ok p => some p.1.choice
  | .error _ => none

/-- Concrete input for claim C1: the game is configured with
`n_doors=3, n_goats=0`; the stream makes the re-randomized goat count 2,
places goats on doors 0 and 1, picks door 2, and reveals door 0. -/
def streamC1 : Rng := [2, 0, 0, 2, 0]

def runC1 : Except Err ((Game × Bool) × Rng) :=
  match mkGame (some 3) (some 0) none streamC1 with
  | .error e => .error e
  | .ok (g, r) => play g "stay" "goat" 5 r

/-- Concrete trial state for claim C2: door 0 is visible and prize-bearing,
doors 1 and 2 are closed. -/
def gC2 : Game :=
  ⟨3, 3, 0, (some 3, some 0), none, false, 3, 0,
   [true, true, true], [true, false, false]⟩

/-- Concrete fresh game for claim C3 (goats on doors 0 and 1). -/
def gC3 : Game := okGame (mkGame (some 3) (some 2) none [0, 0])

def cfgC3 : Config :=
  { games := 1, nDoors := some 3, nGoats := some 2, maxDoors := none
    player := "stay", host := "switch" }

def cfgC4 : Config :=
  { games := 2, nDoors := some 3, nGoats := none, maxDoors := none
    player := "stay", host := "goat" }

/-- Stream for claim C4: trial 1 samples goat count 0, rerolls once, then
completes with goat count 2; trial 2 completes at once with goat count 2. -/
def streamC4 : Rng := [0, 0, 2, 0, 0, 2, 0, 2, 0, 0, 2, 0]

def cfgC5 : Config :=
  { games := 1, nDoors := some 5, nGoats := some 4, maxDoors := some 3
    player := "stay", host := "goat" }

/-- Stream for claim C5: goats on doors 0-3, choice 4, reveal door 0. -/
def streamC5 : Rng := [0, 0, 0, 0, 4, 0]

/-- Config and stream for the C5 witness: the classic fixed
3-door / 2-goat game, one trial. -/
def cfgC5W : Config :=
  { games := 1, nDoors := some 3, nGoats := some 2, maxDoors := none
    player := "stay", host := "goat" }

def streamC5W : Rng := [0, 0, 2, 0]

/-- Concrete goat-free state for claim C6's witness. -/
def gC6 : Game :=
  ⟨3, 3, 0, (some 3, some 0), some 1, false, 3, 0,
   [true, true, true], [false, false, false]⟩

/-- Concrete state for claim C8's witness: goats on doors 0 and 1,
player's choice on door 2. -/
def gC8 : Game :=
  ⟨3, 3, 0, (some 3, some 2), some 2, false, 3, 2,
   [false, false, true], [false, false, false]⟩

/-- Base game and stream for the C7 witness: a fixed 3-door / 2-goat
initialization followed by the first random choice. -/
def streamC7 : Rng := [0, 0, 2, 0]

def gC7a : Game := okGame (initState dummyGame (some 3) (some 2) streamC7)

def rC7a : Rng := okRng (initState dummyGame (some 3) (some 2) streamC7)

def gC7b : Game := okGame (choose gC7a "random" rC7a)

def rC7b : Rng := okRng (choose gC7a "random" rC7a)

/-- Game and stream for the C9 witness. -/
def streamC9 : Rng := [0, 0, 2, 0]

def gC9a : Game := okGame (mkGame (some 3) (some 2) none streamC9)

def rC9a : Rng := okRng (mkGame (some 3) (some 2) none streamC9)

def gC9w : Game := playGame (play gC9a "stay" "goat" 5 rC9a)

/-! Basic counting lemmas. -/

theorem countTrue_cons (a : Bool) (l : List Bool) :
    countTrue (a :: l) = countTrue l + (if a then 1 else 0) := by
  simp [countTrue, List.countP_cons]

theorem countFalse_cons (a : Bool) (l : List Bool) :
    countFalse (a :: l) = countFalse l + (if a then 0 else 1) := by
  cases a <;> simp [countFalse, List.countP_cons]

theorem countTrue_add_countFalse (l : List Bool) :
    countTrue l + countFalse l = l.length := by
  induction l with
  | nil => rfl
  | cons a t ih =>
    rw [countTrue_cons, countFalse_cons, List.length_cons, ← ih]
    cases a <;> simp <;> omega

theorem countFalse_le_length (l : List Bool) : countFalse l ≤ l.length :=
  List.countP_le_length _

theorem countFalse_replicate_true (n : Nat) :
    countFalse (List.replicate n true) = 0 := by
  simp [countFalse, List.countP_replicate]

theorem countTrue_replicate_false (n : Nat) :
    countTrue (List.replicate n false) = 0 := by
  simp [countTrue, List.countP_replicate]

theorem countTrue_set_true {l : List Bool} {j : Nat}
    (h : l[j]? = some false) :
    countTrue (l.set j true) = countTrue l + 1 := by
  induction l generalizing j with
  | nil => simp at h
  | cons a t ih =>
    cases j with
    | zero =>
      simp only [List.getElem?_cons_zero, Option.some.injEq] at h
      subst h
      simp [List.set, countTrue_cons]
    | succ j =>
      simp only [List.getElem?_cons_succ] at h
      simp only [List.set, countTrue_cons, ih h]
      omega

theorem countFalse_set_false {l : List Bool} {j : Nat}
    (h : l[j]? = some true) :
    countFalse (l.set j false) = countFalse l + 1 := by
  induction l generalizing j with
  | nil => simp at h
  | cons a t ih =>
    cases j with
    | zero =>
      simp only [List.getElem?_cons_zero, Option.some.injEq] at h
      subst h
      simp [List.set, countFalse_cons]
    | succ j =>
      simp only [List.getElem?_cons_succ] at h
      simp only [List.set, countFalse_cons, ih h]
      omega

/-! Lemmas about `setFalseAt`. -/

theorem setFalseAt_cons (l : List Bool) (i : Nat) (idxs : List Nat) :
    setFalseAt l (i :: idxs) = setFalseAt (l.set i false) idxs := rfl

theorem setFalseAt_length (idxs : List Nat) (l : List Bool) :
    (setFalseAt l idxs).length = l.length := by
  induction idxs generalizing l with
  | nil => rfl
  | cons i idxs ih => rw [setFalseAt_cons, ih, List.length_set]

theorem countFalse_setFalseAt {idxs : List Nat} {l : List Bool}
    (hnd : idxs.Nodup) (hmem : ∀ i ∈ idxs, l[i]? = some true) :
    countFalse (setFalseAt l idxs) = countFalse l + idxs.length := by
  induction idxs generalizing l with
  | nil => rfl
  | cons i idxs ih =>
    rw [List.nodup_cons] at hnd
    rw [setFalseAt_cons]
    have hset : ∀ x ∈ idxs, (l.set i false)[x]? = some true := by
      intro x hx
      have hix : i ≠ x := by
        rintro rfl
        exact hnd.1 hx
      rw [List.getElem?_set_ne hix]
      exact hmem x (List.mem_cons_of_mem _ hx)
    rw [ih hnd.2 hset, countFalse_set_false (hmem i (List.mem_cons_self i idxs))]
    simp [Nat.add_comm, Nat.add_assoc, Nat.add_left_comm]

/-! Lemmas about the random source primitives. -/

theorem integers_ok_lt {b v : Nat} {r r1 : Rng}
    (h : integers b r = .ok (v, r1)) : v < b := by
  unfold integers at h
  split at h
  · exact absurd h (by simp)
  · case isFalse hb =>
    simp only [Except.ok.injEq, Prod.mk.injEq] at h
    rw [← h.1]
    exact Nat.mod_lt _ (Nat.pos_of_ne_zero hb)

theorem getElem_not_mem_eraseIdx {l : List Nat} (hnd : l.Nodup) {i : Nat}
    (hi : i < l.length) : l[i] ∉ l.eraseIdx i := by
  intro hm
  rw [List.eraseIdx_eq_take_drop_succ] at hm
  have hdecomp : l = l.take i ++ l[i] :: l.drop (i + 1) := by
    conv_lhs => rw [← List.take_append_drop i l]
    rw [List.getElem_cons_drop l i hi]
  rw [hdecomp, List.nodup_append] at hnd
  rcases List.mem_append.mp hm with h1 | h2
  · exact hnd.2.2 h1 (List.mem_cons_self _ _)
  · exact (List.nodup_cons.mp hnd.2.1).1 h2

theorem drawFromPool_spec :
    ∀ (k : Nat) (pool : List Nat) (r : Rng), pool.Nodup →
      k ≤ pool.length →
      (drawFromPool pool k r).1.Nodup ∧
      (drawFromPool pool k r).1.length = k ∧
      ∀ x ∈ (drawFromPool pool k r).1, x ∈ pool := by
  intro k
  induction k with
  | zero => intro pool r _ _; simp [drawFromPool]
  | succ k ih =>
    intro pool r hnd hk
    have hpos : 0 < pool.length := Nat.lt_of_lt_of_le (Nat.succ_pos k) hk
    have hilt : (nextVal r).1 % pool.length < pool.length :=
      Nat.mod_lt _ hpos
    have hgd : pool.getD ((nextVal r).1 % pool.length) 0 =
        pool[(nextVal r).1 % pool.length] := by
      rw [List.getD_eq_getElem?_getD, List.getElem?_eq_getElem hilt,
        Option.getD_some]
    have hlen : (pool.eraseIdx ((nextVal r).1 % pool.length)).length =
        pool.length - 1 := List.length_eraseIdx_of_lt hilt
    have hrec := ih (pool.eraseIdx ((nextVal r).1 % pool.length)) (nextVal r).2
      (List.Nodup.eraseIdx _ hnd) (by omega)
    refine ⟨?_, ?_, ?_⟩
    · simp only [drawFromPool, List.nodup_cons]
      refine ⟨?_, hrec.1⟩
      rw [hgd]
      intro hx
      exact getElem_not_mem_eraseIdx hnd hilt (hrec.2.2 _ hx)
    · simp only [drawFromPool, List.length_cons, hrec.2.1]
    · simp only [drawFromPool, List.mem_cons]
      intro x hx
      rcases hx with hx | hx
      · rw [hx, hgd]; exact List.getElem_mem hilt
      · exact List.mem_of_mem_eraseIdx (hrec.2.2 _ hx)

theorem choiceNoReplace_ok {n k : Nat} {r r1 : Rng} {xs : List Nat}
    (h : choiceNoReplace n k r = .ok (xs, r1)) :
    xs.Nodup ∧ xs.length = k ∧ ∀ x ∈ xs, x < n := by
  unfold choiceNoReplace at h
  split at h
  · exact absurd h (by simp)
  · case isFalse hnk =>
    simp only [Except.ok.injEq] at h
    have hk : k ≤ (List.range n).length := by
      rw [List.length_range]; omega
    have hs := drawFromPool_spec k (List.range n) r (List.nodup_range n) hk
    rw [h] at hs
    exact ⟨hs.1, hs.2.1, fun x hx => List.mem_range.mp (hs.2.2 x hx)⟩

/-! Lemmas about the candidate pools. -/

theorem mem_falseIdxs {l : List Bool} {x : Nat} :
    x ∈ falseIdxs l ↔ l[x]? = some false := by
  unfold falseIdxs
  rw [List.mem_map]
  constructor
  · rintro ⟨⟨i, b⟩, hp, rfl⟩
    rw [List.mem_filter] at hp
    have hb : b = false := by simpa using hp.2
    subst hb
    exact List.mk_mem_enum_iff_getElem?.mp hp.1
  · intro hx
    refine ⟨(x, false), ?_, rfl⟩
    rw [List.mem_filter]
    exact ⟨List.mk_mem_enum_iff_getElem?.mpr hx, rfl⟩

theorem nodup_falseIdxs (l : List Bool) : (falseIdxs l).Nodup := by
  unfold falseIdxs
  exact ((List.filter_sublist _).map Prod.fst).nodup (List.nodup_enum_map_fst l)

theorem mem_goatOptions {g : Game} {j : Nat} (h : j ∈ goatOptions g) :
    g.prizes[j]? = some false ∧ g.choice ≠ some j := by
  rcases hc : g.choice with _ | c <;> simp only [goatOptions, hc] at h
  · exact ⟨mem_falseIdxs.mp h, by simp⟩
  · by_cases hcm : c ∈ falseIdxs g.prizes
    · rw [if_pos hcm] at h
      have := (List.Nodup.mem_erase_iff (nodup_falseIdxs g.prizes)).mp h
      exact ⟨mem_falseIdxs.mp this.2, by simpa [eq_comm] using this.1⟩
    · rw [if_neg hcm] at h
      refine ⟨mem_falseIdxs.mp h, ?_⟩
      intro hj
      apply hcm
      rw [Option.some.injEq] at hj
      rw [hj]
      exact h

theorem mem_revealRandomOptions {g : Game} {j : Nat}
    (h : j ∈ revealRandomOptions g) : j < g.nDoors ∧ g.choice ≠ some j := by
  unfold revealRandomOptions at h
  rw [List.mem_filter] at h
  refine ⟨List.mem_range.mp h.1, ?_⟩
  intro hj
  have := h.2
  rw [hj] at this
  simp at this

theorem getD_mem_of_lt {l : List Nat} {i : Nat} (h : i < l.length) :
    l.getD i 0 ∈ l := by
  rw [List.getD_eq_getElem?_getD, List.getElem?_eq_getElem h, Option.getD_some]
  exact List.getElem_mem h

/-! Field-preservation lemmas for the trial operations. -/

theorem chooseBase_fields (g : Game) :
    (chooseBase g).prizes = g.prizes ∧ (chooseBase g).visible = g.visible ∧
    (chooseBase g).nDoors = g.nDoors ∧ (chooseBase g).nGoats = g.nGoats ∧
    (chooseBase g).rerolls = g.rerolls ∧ (chooseBase g).args = g.args ∧
    (chooseBase g).win = g.win ∧ (chooseBase g).minDoors = g.minDoors ∧
    (chooseBase g).maxDoors = g.maxDoors := by
  unfold chooseBase
  rcases visiblePrizeIdx g with _ | i <;> simp

theorem choose_ok_fields {g : Game} {s : String} {r : Rng} {g1 : Game}
    {r1 : Rng} (h : choose g s r = .ok (g1, r1)) :
    g1.prizes = g.prizes ∧ g1.visible = g.visible ∧
    g1.nDoors = g.nDoors ∧ g1.nGoats = g.nGoats ∧
    g1.rerolls = g.rerolls ∧ g1.args = g.args ∧ g1.win = g.win ∧
    g1.minDoors = g.minDoors ∧ g1.maxDoors = g.maxDoors := by
  have hb := chooseBase_fields g
  simp only [choose] at h
  split at h
  · simp only [Except.ok.injEq, Prod.mk.injEq] at h
    rw [← h.1]
    exact hb
  · split at h
    · split at h
      · exact absurd h (by simp)
      · simp only [Except.ok.injEq, Prod.mk.injEq] at h
        rw [← h.1]
        simpa using hb
    · split at h
      · split at h
        · exact absurd h (by simp)
        · simp only [Except.ok.injEq, Prod.mk.injEq] at h
          rw [← h.1]
          simpa using hb
      · simp only [Except.ok.injEq, Prod.mk.injEq] at h
        rw [← h.1]
        exact hb

theorem reveal_ok_fields {g : Game} {s : String} {r : Rng} {f : Bool}
    {g1 : Game} {r1 : Rng} (h : reveal g s r = .ok ((f, g1), r1)) :
    g1.prizes = g.prizes ∧ g1.choice = g.choice ∧
    g1.nDoors = g.nDoors ∧ g1.nGoats = g.nGoats ∧
    g1.rerolls = g.rerolls ∧ g1.args = g.args ∧ g1.win = g.win ∧
    g1.minDoors = g.minDoors ∧ g1.maxDoors = g.maxDoors := by
  simp only [reveal] at h
  split at h
  · split at h
    · simp only [Except.ok.injEq, Prod.mk.injEq] at h
      rw [← h.1.2]
      simp
    · split at h
      · exact absurd h (by simp)
      · simp only [Except.ok.injEq, Prod.mk.injEq] at h
        rw [← h.1.2]
        simp
  · split at h
    · split at h
      · exact absurd h (by simp)
      · simp only [Except.ok.injEq, Prod.mk.injEq] at h
        rw [← h.1.2]
        simp
    · exact absurd h (by simp)

theorem reveal_ok_false_visible {g : Game} {s : String} {r : Rng}
    {g1 : Game} {r1 : Rng} (hs : s = "goat" ∨ s = "random")
    (h : reveal g s r = .ok ((false, g1), r1)) :
    ∃ j, g1.visible = g.visible.set j true ∧ g.choice ≠ some j ∧
      (s = "goat" → j ∈ goatOptions g) := by
  simp only [reveal] at h
  rcases hs with hs | hs <;> subst hs
  · rw [if_pos rfl] at h
    by_cases hlen : (goatOptions g).length = 0
    · rw [if_pos hlen] at h
      exact absurd h (by simp)
    · rw [if_neg hlen] at h
      rcases hi : integers (goatOptions g).length r with e | ⟨i, r2⟩
      · rw [hi] at h
        exact absurd h (by simp)
      · rw [hi] at h
        simp only [Except.ok.injEq, Prod.mk.injEq] at h
        have hlt : i < (goatOptions g).length := integers_ok_lt hi
        have hmem : (goatOptions g).getD i 0 ∈ goatOptions g :=
          getD_mem_of_lt hlt
        refine ⟨(goatOptions g).getD i 0, ?_, (mem_goatOptions hmem).2,
          fun _ => hmem⟩
        rw [← h.1.2]
  · rw [if_neg (by decide), if_pos rfl] at h
    rcases hi : integers (revealRandomOptions g).length r with e | ⟨i, r2⟩
    · rw [hi] at h
      exact absurd h (by simp)
    · rw [hi] at h
      simp only [Except.ok.injEq, Prod.mk.injEq] at h
      have hlt : i < (revealRandomOptions g).length := integers_ok_lt hi
      have hmem : (revealRandomOptions g).getD i 0 ∈ revealRandomOptions g :=
        getD_mem_of_lt hlt
      refine ⟨(revealRandomOptions g).getD i 0, ?_,
        (mem_revealRandomOptions hmem).2, by simp⟩
      rw [← h.1.2]

/-! Characterization of `initState` and the invariant preserved by `play`. -/

theorem initState_ok {g : Game} {ndReq ngReq : Option Nat} {r : Rng}
    {g1 : Game} {r1 : Rng} (h : initState g ndReq ngReq r = .ok (g1, r1)) :
    g1.choice = none ∧ g1.win = false ∧ g1.args = (ndReq, ngReq) ∧
    g1.rerolls = g.rerolls ∧ g1.minDoors = g.minDoors ∧
    g1.maxDoors = g.maxDoors ∧
    g1.visible = List.replicate g1.nDoors false ∧
    g1.prizes.length = g1.nDoors ∧
    countFalse g1.prizes = g1.nGoats := by
  simp only [initState] at h
  split at h
  · exact absurd h (by simp)
  · next nd r2 h1 =>
    split at h
    · exact absurd h (by simp)
    · next ng r3 h2 =>
      split at h
      · exact absurd h (by simp)
      · next goatidxs r4 h3 =>
        obtain ⟨hnd, hlen, hlt⟩ := choiceNoReplace_ok h3
        simp only [Except.ok.injEq, Prod.mk.injEq] at h
        rw [← h.1]
        refine ⟨rfl, rfl, rfl, rfl, rfl, rfl, rfl, ?_, ?_⟩
        · simp [setFalseAt_length]
        · simp only []
          rw [countFalse_setFalseAt hnd ?hmem, countFalse_replicate_true, hlen]
          · simp
          · intro i hi
            rw [List.getElem?_replicate, if_pos (hlt i hi)]

theorem play_ok_inv {p h : String} : ∀ (fuel : Nat) (g : Game) (r : Rng)
    (gw : Game) (w : Bool) (rw1 : Rng),
    play g p h fuel r = .ok ((gw, w), rw1) →
    countFalse g.prizes = g.nGoats ∧ g.prizes.length = g.nDoors →
    countFalse gw.prizes = gw.nGoats ∧ gw.prizes.length = gw.nDoors := by
  intro fuel
  induction fuel with
  | zero =>
    intro g r gw w rw1 hp
    exact absurd hp (by simp [play])
  | succ fuel ih =>
    intro g r gw w rw1 hp hinv
    simp only [play] at hp
    split at hp
    · exact absurd hp (by simp)
    · next g1 r1 h1 =>
      split at hp
      · exact absurd hp (by simp)
      · -- reroll branch: reinitialize and recurse
        next g2 r2 h2 =>
        split at hp
        · exact absurd hp (by simp)
        · next g4 r4 h4 =>
          obtain ⟨_, _, _, _, _, _, _, hl4, hc4⟩ := initState_ok h4
          exact ih g4 r4 gw w rw1 hp ⟨hc4, hl4⟩
      · -- successful reveal branch
        next g2 r2 h2 =>
        split at hp
        · exact absurd hp (by simp)
        · next g3 r3 h3 =>
          split at hp
          · exact absurd hp (by simp)
          · next c hc =>
            split at hp
            · exact absurd hp (by simp)
            · next wv hw =>
              simp only [Except.ok.injEq, Prod.mk.injEq] at hp
              obtain ⟨hcf1, _, hcf3, hcf4, _⟩ := choose_ok_fields h1
              obtain ⟨hrf1, _, hrf3, hrf4, _⟩ := reveal_ok_fields h2
              obtain ⟨hcg1, _, hcg3, hcg4, _⟩ := choose_ok_fields h3
              rw [← hp.1.1]
              constructor
              · simp only []
                rw [hcg1, hrf1, hcf1, hcg4, hrf4, hcf4]
                exact hinv.1
              · simp only []
                rw [hcg1, hrf1, hcf1, hcg3, hrf3, hcf3]
                exact hinv.2

/-! Lemmas about the statistics accumulation. -/

theorem bumpFold_goats (nGoats : Nat) (win : Bool) :
    ∀ (cts : List Nat) (s : Stats) (b : Nat), cts.Nodup →
    ((cts.foldl
      (fun st ct =>
        { st with
          goats := Function.update st.goats ct
            (st.goats ct + (if ct = nGoats then 1 else 0))
          goatWins := Function.update st.goatWins ct
            (st.goatWins ct + (if ct = nGoats ∧ win then 1 else 0)) })
      s).goats b)
      = s.goats b + (if b ∈ cts ∧ b = nGoats then 1 else 0) := by
  intro cts
  induction cts with
  | nil => intro s b _; simp
  | cons ct cts ih =>
    intro s b hnd
    rw [List.foldl_cons, ih _ b (List.nodup_cons.mp hnd).2]
    simp only [Function.update_apply]
    by_cases hb : b = ct
    · subst hb
      have hbn : b ∉ cts := (List.nodup_cons.mp hnd).1
      simp only [if_pos rfl, hbn, List.mem_cons, true_or, true_and,
        false_and, if_false]
      by_cases hg : b = nGoats <;> simp [hg]
    · simp only [if_neg hb, List.mem_cons]
      by_cases hbc : b ∈ cts
      · simp [hbc, hb]
      · simp [hbc, hb]

theorem bumpFold_rerolls (nGoats : Nat) (win : Bool) :
    ∀ (cts : List Nat) (s : Stats),
    ((cts.foldl
      (fun st ct =>
        { st with
          goats := Function.update st.goats ct
            (st.goats ct + (if ct = nGoats then 1 else 0))
          goatWins := Function.update st.goatWins ct
            (st.goatWins ct + (if ct = nGoats ∧ win then 1 else 0)) })
      s).rerolls) = s.rerolls := by
  intro cts
  induction cts with
  | nil => intro s; rfl
  | cons ct cts ih => intro s; rw [List.foldl_cons, ih]

theorem bumpBuckets_goats (s : Stats) (maxD nGoats : Nat) (win : Bool)
    (b : Nat) :
    (bumpBuckets s maxD nGoats win).goats b =
      s.goats b + (if b ≤ maxD ∧ b = nGoats then 1 else 0) := by
  simp only [bumpBuckets]
  rw [bumpFold_goats nGoats win _ s b (List.nodup_range _)]
  congr 1
  simp [List.mem_range, Nat.lt_succ_iff]

theorem bumpBuckets_rerolls (s : Stats) (maxD nGoats : Nat) (win : Bool) :
    (bumpBuckets s maxD nGoats win).rerolls = s.rerolls := by
  simp only [bumpBuckets]
  rw [bumpFold_rerolls]

theorem sum_map_add (l : List Nat) (f h : Nat → Nat) :
    (l.map (fun b => f b + h b)).sum = (l.map f).sum + (l.map h).sum := by
  induction l with
  | nil => rfl
  | cons a t ih => simp [ih]; omega

theorem sum_range_eq_indicator (g : Nat) :
    ∀ n : Nat, ((List.range n).map (fun b => if b = g then 1 else 0)).sum =
      if g < n then 1 else 0 := by
  intro n
  induction n with
  | zero => simp
  | succ n ih =>
    rw [List.range_succ, List.map_append, List.sum_append, ih]
    simp only [List.map_cons, List.map_nil, List.sum_cons, List.sum_nil]
    split <;> split <;> split <;> omega

theorem bucketSum_bumpBuckets (s : Stats) (m nGoats : Nat) (win : Bool) :
    bucketSum (bumpBuckets s m nGoats win) m =
      bucketSum s m + (if nGoats ≤ m then 1 else 0) := by
  unfold bucketSum
  have hmap : (List.range (m + 1)).map (bumpBuckets s m nGoats win).goats =
      (List.range (m + 1)).map
        (fun b => s.goats b + (if b = nGoats then 1 else 0)) := by
    apply List.map_congr_left
    intro b hb
    rw [bumpBuckets_goats]
    have hble : b ≤ m := Nat.lt_succ_iff.mp (List.mem_range.mp hb)
    simp [hble]
  rw [hmap, sum_map_add, sum_range_eq_indicator]
  congr 1
  simp [Nat.lt_succ_iff]

theorem foldTrial_goats (st : SeriesState) (g : Game) :
    (foldTrial st g).stats.goats = st.stats.goats := rfl

theorem simulateLoop_ok {cfg : Config} {fuel m : Nat}
    (hm : effMaxDoors cfg = some m) :
    ∀ (n : Nat) (st : SeriesState) (r : Rng) (st1 : SeriesState) (r1 : Rng),
    simulateLoop cfg fuel n st r = .ok (st1, r1) →
    ∃ L : List Game, st1.history = st.history ++ L ∧ L.length = n ∧
      st1.stats.rerolls = st.stats.rerolls + (L.map Game.rerolls).sum ∧
      bucketSum st1.stats m = bucketSum st.stats m +
        L.countP (fun gg => decide (gg.nGoats ≤ m)) := by
  intro n
  induction n with
  | zero =>
    intro st r st1 r1 hs
    simp only [simulateLoop, Except.ok.injEq, Prod.mk.injEq] at hs
    exact ⟨[], by simp [← hs.1]⟩
  | succ n ih =>
    intro st r st1 r1 hs
    simp only [simulateLoop] at hs
    split at hs
    · exact absurd hs (by simp)
    · next g r2 h1 =>
      split at hs
      · exact absurd hs (by simp)
      · next g2 w r3 h2 =>
        split at hs
        · exact absurd hs (by simp)
        · next m1 hm1 =>
          rw [hm] at hm1
          have hmm : m = m1 := Option.some.inj hm1
          subst hmm
          obtain ⟨L, hh, hlen, hrer, hbuck⟩ := ih _ _ _ _ hs
          refine ⟨g2 :: L, ?_, by simp [hlen], ?_, ?_⟩
          · rw [hh]
            simp [foldTrial]
          · rw [hrer]
            simp only [foldTrial, bumpBuckets_rerolls]
            simp [List.map_cons, List.sum_cons]
            omega
          · rw [hbuck, List.countP_cons]
            have hb1 : bucketSum
                (bumpBuckets (foldTrial st g2).stats m g2.nGoats g2.win) m =
                bucketSum (foldTrial st g2).stats m +
                  (if g2.nGoats ≤ m then 1 else 0) :=
              bucketSum_bumpBuckets _ _ _ _
            have hb2 : bucketSum (foldTrial st g2).stats m =
                bucketSum st.stats m := rfl
            rw [hb1, hb2]
            by_cases hg : g2.nGoats ≤ m <;> (simp [hg]; try omega)

theorem simulateLoop_rerolls {cfg : Config} {fuel : Nat} :
    ∀ (n : Nat) (st : SeriesState) (r : Rng) (st1 : SeriesState) (r1 : Rng),
    simulateLoop cfg fuel n st r = .ok (st1, r1) →
    ∃ L : List Game, st1.history = st.history ++ L ∧
      st1.stats.rerolls = st.stats.rerolls + (L.map Game.rerolls).sum := by
  intro n
  induction n with
  | zero =>
    intro st r st1 r1 hs
    simp only [simulateLoop, Except.ok.injEq, Prod.mk.injEq] at hs
    exact ⟨[], by simp [← hs.1]⟩
  | succ n ih =>
    intro st r st1 r1 hs
    simp only [simulateLoop] at hs
    split at hs
    · exact absurd hs (by simp)
    · next g r2 h1 =>
      split at hs
      · exact absurd hs (by simp)
      · next g2 w r3 h2 =>
        split at hs
        · exact absurd hs (by simp)
        · next m1 hm1 =>
          obtain ⟨L, hh, hrer⟩ := ih _ _ _ _ hs
          refine ⟨g2 :: L, ?_, ?_⟩
          · rw [hh]
            simp [foldTrial]
          · rw [hrer]
            simp only [foldTrial, bumpBuckets_rerolls]
            simp only [List.map_cons, List.sum_cons]
            omega

/-! Remaining helper lemmas for the claim theorems. -/

theorem reveal_ok_true_eq {g : Game} {s : String} {r : Rng} {g1 : Game}
    {r1 : Rng} (h : reveal g s r = .ok ((true, g1), r1)) :
    g1 = g ∧ r1 = r := by
  simp only [reveal] at h
  split at h
  · split at h
    · simp only [Except.ok.injEq, Prod.mk.injEq] at h
      exact ⟨h.1.2.symm, h.2.symm⟩
    · split at h
      · exact absurd h (by simp)
      · simp only [Except.ok.injEq, Prod.mk.injEq] at h
        exact absurd h.1.1 (by simp)
  · split at h
    · split at h
      · exact absurd h (by simp)
      · simp only [Except.ok.injEq, Prod.mk.injEq] at h
        exact absurd h.1.1 (by simp)
    · exact absurd h (by simp)

theorem visiblePrizeIdx_spec {g : Game} {c : Nat}
    (h : visiblePrizeIdx g = some c) :
    g.visible[c]? = some true ∧ g.prizes[c]? = some true := by
  simp only [visiblePrizeIdx] at h
  split at h
  · case isTrue hany =>
    rw [Option.some.injEq] at h
    subst h
    obtain ⟨b, hb, hpb⟩ := List.any_eq_true.mp hany
    have hlt : (List.zipWith (fun a b => a && b) g.visible g.prizes).findIdx
        (fun b => b) <
        (List.zipWith (fun a b => a && b) g.visible g.prizes).length :=
      List.findIdx_lt_length_of_exists ⟨b, hb, hpb⟩
    have hget := @List.findIdx_getElem _ _ _ hlt
    have hcv : (List.zipWith (fun a b => a && b) g.visible g.prizes).findIdx
        (fun b => b) < g.visible.length := by
      rw [List.length_zipWith] at hlt
      omega
    have hcp : (List.zipWith (fun a b => a && b) g.visible g.prizes).findIdx
        (fun b => b) < g.prizes.length := by
      rw [List.length_zipWith] at hlt
      omega
    rw [List.getElem_zipWith] at hget
    have hand := Bool.and_eq_true_iff.mp hget
    rw [List.getElem?_eq_getElem hcv, List.getElem?_eq_getElem hcp]
    exact ⟨by rw [hand.1], by rw [hand.2]⟩
  · exact absurd h (by simp)

theorem getElem?_some_lt {l : List Bool} {i : Nat} {b : Bool}
    (h : l[i]? = some b) : i < l.length := by
  by_contra hge
  rw [List.getElem?_eq_none (by omega)] at h
  exact absurd h (by simp)

theorem reveal_goat_flip {g1 : Game} {r : Rng}
    (hvis : g1.visible = List.replicate g1.nDoors false)
    (hplen : g1.prizes.length = g1.nDoors)
    (hpool : goatOptions g1 ≠ []) :
    ∃ j g2 r2, reveal g1 "goat" r = .ok ((false, g2), r2) ∧
      j < g1.visible.length ∧ g1.visible.getD j true = false ∧
      g2.visible = g1.visible.set j true ∧
      countTrue g2.visible = countTrue g1.visible + 1 := by
  have hlen0 : (goatOptions g1).length ≠ 0 := by
    intro h0
    exact hpool (List.length_eq_zero.mp h0)
  have hpos : 0 < (goatOptions g1).length := Nat.pos_of_ne_zero hlen0
  have hint : integers (goatOptions g1).length r =
      .ok ((nextVal r).1 % (goatOptions g1).length, (nextVal r).2) := by
    simp [integers, hlen0]
  have hjmem : (goatOptions g1).getD ((nextVal r).1 % (goatOptions g1).length)
      0 ∈ goatOptions g1 := getD_mem_of_lt (Nat.mod_lt _ hpos)
  obtain ⟨hjp, _⟩ := mem_goatOptions hjmem
  have hjlt : (goatOptions g1).getD ((nextVal r).1 % (goatOptions g1).length)
      0 < g1.nDoors := by
    rw [← hplen]
    exact getElem?_some_lt hjp
  have hjv : g1.visible[(goatOptions g1).getD
      ((nextVal r).1 % (goatOptions g1).length) 0]? = some false := by
    rw [hvis, List.getElem?_replicate, if_pos hjlt]
  refine ⟨(goatOptions g1).getD ((nextVal r).1 % (goatOptions g1).length) 0,
    { g1 with visible := g1.visible.set ((goatOptions g1).getD
        ((nextVal r).1 % (goatOptions g1).length) 0) true },
    (nextVal r).2, ?_, ?_, ?_, rfl, ?_⟩
  · simp only [reveal, if_true]
    rw [if_neg hlen0, hint]
  · rw [hvis, List.length_replicate]
    exact hjlt
  · rw [List.getD_eq_getElem?_getD, hjv, Option.getD_some]
  · simp only []
    exact countTrue_set_true hjv

theorem sum_map_zero (l : List Nat) : (l.map (fun _ => 0)).sum = 0 := by
  induction l with
  | nil => rfl
  | cons a t ih => simp [ih]

theorem bucketSum_empty (m : Nat) : bucketSum emptyStats m = 0 := by
  simp only [bucketSum, emptyStats]
  exact sum_map_zero _

/-! The claim theorems. -/

/-- Claim C1 (code-bug evaluation): a game configured with the goat count
explicitly fixed at 0 (`n_goats=0`, stored in `args`) does not keep its goat
count at 0 and need not reroll at all: because Python's `n_goats or ...`
treats 0 as unset, the run `runC1` re-randomizes the goat count (here to 2)
and the trial completes with a reroll counter of 0, contradicting the claim
that every such trial reroll-loops. -/
theorem c1_goat_zero_rerandomized :
    playOutcome runC1 = some (2, 0, true) ∧
    (playGame runC1).args = (some 3, some 0) := by decide

/-- Claim C2 (counterexample): in state `gC2` door 0 is visible and
prize-bearing (`visiblePrizeIdx gC2 = some 0`), yet `choose` with strategy
`random` leaves the final choice on door 1, which is not visible — the
revealed prize is passed up, because after the override the `random` branch
resamples from the non-visible pool. -/
theorem c2_counterexample :
    visiblePrizeIdx gC2 = some 0 ∧
    chooseChoice (choose gC2 "random" [0]) = some (some 1) ∧
    gC2.visible.getD 1 true = false := by decide

/-- Claim C2 (amended): the revealed-prize override is only effective for
strategy `stay`: when some door is both visible and prize-bearing,
`choose(stay)` leaves the player's choice on the first such door; with
`random` or `update` the choice is subsequently resampled from the
non-visible pool and the revealed prize can be passed up. -/
theorem c2_stay_takes_visible_prize (g : Game) (r : Rng) (c : Nat)
    (h : visiblePrizeIdx g = some c) :
    choose g "stay" r = .ok ({ g with choice := some c }, r) ∧
    g.visible[c]? = some true ∧ g.prizes[c]? = some true := by
  refine ⟨?_, visiblePrizeIdx_spec h⟩
  simp [choose, chooseBase, h]

/-- Witness for the amended claim C2, at the concrete state `gC2`. -/
theorem c2_stay_witness :
    choose gC2 "stay" [] = .ok ({ gC2 with choice := some 0 }, []) ∧
    gC2.visible[0]? = some true ∧ gC2.prizes[0]? = some true :=
  c2_stay_takes_visible_prize gC2 [] 0 (by decide)

/-- Claim C3 (code-bug evaluation): `reveal` with an unsupported strategy
does not continue execution — after printing the diagnostic it reads the
never-assigned local `options`, raising `UnboundLocalError`, and the error
propagates through `play` and `simulate` to the caller as a hard failure. -/
theorem c3_unsupported_strategy_raises :
    revealErr (reveal gC3 "switch" [0]) = some .nameError ∧
    seriesErr (simulate cfgC3 none 5 emptySeries [0, 0, 0]) =
      some .nameError := by
  decide

/-- Claim C4 (counterexample): in the two-trial series `runC4` the first
trial restarts once (its counter ends at 1), so by the time the second
trial completes the series has needed 1 restart; yet the second trial's
reroll counter is 0, not 1 — the counter read from a completed trial is not
series-wide. -/
theorem c4_counterexample :
    seriesRerolls (simulate cfgC4 none 5 emptySeries streamC4) =
      some ([1, 0], 1) := by decide

/-- Claim C4 (amended): the reroll counter of a completed trial is
per-trial, not series-wide: every freshly constructed `Game` starts with
`rerolls = 0`, and the series-wide restart total is the separately
accumulated `stats['rerolls']`, the sum of the per-trial counters over the
history. -/
theorem c4_rerolls_per_trial :
    (∀ (ndReq ngReq mdReq : Option Nat) (r : Rng) (g : Game) (r1 : Rng),
       mkGame ndReq ngReq mdReq r = .ok (g, r1) → g.rerolls = 0) ∧
    (∀ (cfg : Config) (n : Option Nat) (fuel : Nat) (r : Rng)
       (st1 : SeriesState) (r1 : Rng),
       simulate cfg n fuel emptySeries r = .ok (st1, r1) →
       st1.stats.rerolls = (st1.history.map Game.rerolls).sum) := by
  constructor
  · intro ndReq ngReq mdReq r g r1 h
    simp only [mkGame] at h
    exact (initState_ok h).2.2.2.1
  · intro cfg n fuel r st1 r1 h
    simp only [simulate] at h
    obtain ⟨L, hh, hrer⟩ := simulateLoop_rerolls _ _ _ _ _ h
    rw [hh, hrer]
    simp [emptySeries, emptyStats]

/-- Witness for the amended claim C4: a concrete fresh game has
`rerolls = 0`, and in the concrete series `cfgC4`/`streamC4` the
accumulated `rerolls` equals the sum of the per-trial counters. -/
theorem c4_rerolls_witness :
    gC9a.rerolls = 0 ∧
    (runSeries (simulate cfgC4 none 5 emptySeries streamC4)).stats.rerolls =
      ((runSeries (simulate cfgC4 none 5 emptySeries streamC4)).history.map
        Game.rerolls).sum :=
  ⟨c4_rerolls_per_trial.1 (some 3) (some 2) none streamC9 gC9a rC9a rfl,
   c4_rerolls_per_trial.2 cfgC4 none 5 streamC4
     (runSeries (simulate cfgC4 none 5 emptySeries streamC4))
     (runSeriesRng (simulate cfgC4 none 5 emptySeries streamC4)) rfl⟩

/-- Claim C5 (counterexample): with `n_doors=5`, `n_goats=4`,
`max_doors=3` the single trial's goat count 4 falls outside every bucket
`0..3`, so after one trial the bucket totals sum to 0, not 1. -/
theorem c5_counterexample :
    seriesBuckets 3 (simulate cfgC5 none 5 emptySeries streamC5) =
      some (0, 1) := by decide

/-- Claim C5 (amended): provided every trial's goat count is at most the
effective `max_doors` (as is the case whenever `max_doors` is at least
every trial's door count, e.g. when `max_doors` is unset and defaults to
`n_doors`), the bucket totals over `0..max_doors` sum to exactly the
number of trials run by `simulate`. -/
theorem c5_bucket_sum (cfg : Config) (fuel m : Nat) (r : Rng)
    (st1 : SeriesState) (r1 : Rng)
    (hm : effMaxDoors cfg = some m)
    (hs : simulate cfg none fuel emptySeries r = .ok (st1, r1))
    (hg : ∀ g ∈ st1.history, g.nGoats ≤ m) :
    bucketSum st1.stats m = cfg.games ∧ st1.history.length = cfg.games := by
  simp only [simulate] at hs
  obtain ⟨L, hh, hlen, _, hbuck⟩ := simulateLoop_ok hm _ _ _ _ _ hs
  have hLhist : st1.history = L := by simpa [emptySeries] using hh
  constructor
  · rw [hbuck, show bucketSum emptySeries.stats m = 0 from bucketSum_empty m]
    have hcp : L.countP (fun gg => decide (gg.nGoats ≤ m)) = L.length := by
      rw [List.countP_eq_length]
      intro a ha
      simp only [decide_eq_true_eq]
      exact hg a (hLhist ▸ ha)
    rw [hcp, hlen]
    simp [pyOrNat]
  · rw [hLhist, hlen]
    simp [pyOrNat]

/-- Witness for the amended claim C5: the classic fixed 3-door, 2-goat
configuration over one trial has bucket totals summing to 1. -/
theorem c5_bucket_sum_witness :
    bucketSum
      (runSeries (simulate cfgC5W none 9 emptySeries streamC5W)).stats 3 = 1 ∧
    (runSeries (simulate cfgC5W none 9 emptySeries streamC5W)).history.length
      = 1 :=
  c5_bucket_sum cfgC5W 9 3 streamC5W
    (runSeries (simulate cfgC5W none 9 emptySeries streamC5W))
    (runSeriesRng (simulate cfgC5W none 9 emptySeries streamC5W))
    rfl rfl (by decide)

/-- Claim C6: when the `goat` reveal pool is empty (every goat door
coincides with the choice or no goat exists), `reveal('goat')` signals the
reroll-required condition (returns the `true` flag) and leaves the entire
trial state and the random stream unchanged. -/
theorem c6_empty_pool_reroll (g : Game) (r : Rng)
    (h : goatOptions g = []) :
    reveal g "goat" r = .ok ((true, g), r) := by
  simp [reveal, h]

/-- Witness for claim C6, at the concrete goat-free state `gC6`. -/
theorem c6_witness : reveal gC6 "goat" [5] = .ok ((true, gC6), [5]) :=
  c6_empty_pool_reroll gC6 [5] (by decide)

/-- Claim C7: at any trial state reached at `reveal`'s call site (a fresh
initialization followed by the first random choice) in which the goat pool
is non-empty, `reveal('goat')` does not signal reroll-required and flips
exactly one `visible` entry from false to true. -/
theorem c7_goat_reveal_flips_one (base : Game) (ndReq ngReq : Option Nat)
    (r r0 r1 : Rng) (g0 g1 : Game)
    (h0 : initState base ndReq ngReq r = .ok (g0, r0))
    (h1 : choose g0 "random" r0 = .ok (g1, r1))
    (hpool : goatOptions g1 ≠ []) :
    ∃ j g2 r2, reveal g1 "goat" r1 = .ok ((false, g2), r2) ∧
      j < g1.visible.length ∧ g1.visible.getD j true = false ∧
      g2.visible = g1.visible.set j true ∧
      countTrue g2.visible = countTrue g1.visible + 1 := by
  obtain ⟨_, _, _, _, _, _, hvis0, hplen0, _⟩ := initState_ok h0
  obtain ⟨hp1, hv1, hnd1, _⟩ := choose_ok_fields h1
  apply reveal_goat_flip
  · rw [hv1, hnd1, hvis0]
  · rw [hp1, hnd1, hplen0]
  · exact hpool

/-- Witness for claim C7, at the concrete initialized state `gC7b`. -/
theorem c7_witness :
    ∃ j g2 r2, reveal gC7b "goat" rC7b = .ok ((false, g2), r2) ∧
      j < gC7b.visible.length ∧ gC7b.visible.getD j true = false ∧
      g2.visible = gC7b.visible.set j true ∧
      countTrue g2.visible = countTrue gC7b.visible + 1 :=
  c7_goat_reveal_flips_one dummyGame (some 3) (some 2) streamC7 rC7a rC7b
    gC7a gC7b rfl rfl (by decide)

/-- Claim C8: for every `reveal` call with a supported host strategy, on
any trial state, a door newly marked visible by the reveal is never the
player's current choice. -/
theorem c8_reveal_not_choice (g g1 : Game) (s : String) (r r1 : Rng)
    (f : Bool) (i : Nat) (hs : s = "goat" ∨ s = "random")
    (h : reveal g s r = .ok ((f, g1), r1))
    (hnew : g1.visible.getD i false = true)
    (hold : g.visible.getD i false = false) :
    g.choice ≠ some i := by
  cases f
  · obtain ⟨j, hset, hch, _⟩ := reveal_ok_false_visible hs h
    by_cases hij : i = j
    · rw [hij]
      exact hch
    · exfalso
      rw [hset, List.getD_eq_getElem?_getD,
        List.getElem?_set_ne (fun hji => hij hji.symm)] at hnew
      rw [List.getD_eq_getElem?_getD] at hold
      rw [hold] at hnew
      exact absurd hnew (by simp)
  · exfalso
    obtain ⟨hg, _⟩ := reveal_ok_true_eq h
    rw [hg] at hnew
    rw [hnew] at hold
    exact absurd hold (by simp)

/-- Witness for claim C8, at the concrete state `gC8` (choice on door 2,
reveal flips door 0). -/
theorem c8_witness : gC8.choice ≠ some 0 :=
  c8_reveal_not_choice gC8 (revGame (reveal gC8 "goat" [0])) "goat" [0]
    (revRng (reveal gC8 "goat" [0])) false 0 (Or.inl rfl) rfl (by decide)
    (by decide)

/-- Claim C9: every resolved trial (a completed `play` on a freshly
constructed game) has exactly `nGoats` prize-free doors and
`nDoors - nGoats` prize-bearing doors; and neither `choose` nor `reveal`
ever modifies `prizes`. -/
theorem c9_prizes_invariant :
    (∀ (ndReq ngReq mdReq : Option Nat) (r : Rng) (g : Game) (r1 : Rng)
       (p h : String) (fuel : Nat) (gw : Game) (w : Bool) (r2 : Rng),
       mkGame ndReq ngReq mdReq r = .ok (g, r1) →
       play g p h fuel r1 = .ok ((gw, w), r2) →
       countFalse gw.prizes = gw.nGoats ∧
       countTrue gw.prizes = gw.nDoors - gw.nGoats) ∧
    (∀ (g : Game) (s : String) (r : Rng) (g1 : Game) (r1 : Rng),
       choose g s r = .ok (g1, r1) → g1.prizes = g.prizes) ∧
    (∀ (g : Game) (s : String) (r : Rng) (f : Bool) (g1 : Game) (r1 : Rng),
       reveal g s r = .ok ((f, g1), r1) → g1.prizes = g.prizes) := by
  refine ⟨?_, fun g s r g1 r1 h => (choose_ok_fields h).1,
    fun g s r f g1 r1 h => (reveal_ok_fields h).1⟩
  intro ndReq ngReq mdReq r g r1 p h fuel gw w r2 hmk hplay
  simp only [mkGame] at hmk
  have hinv0 := initState_ok hmk
  obtain ⟨hcf, hplen⟩ := play_ok_inv fuel g r1 gw w r2 hplay
    ⟨hinv0.2.2.2.2.2.2.2.2, hinv0.2.2.2.2.2.2.2.1⟩
  refine ⟨hcf, ?_⟩
  have hsum := countTrue_add_countFalse gw.prizes
  omega

/-- Witness for claim C9, at the concrete resolved trial `gC9w` and
concrete `choose`/`reveal` calls. -/
theorem c9_witness :
    (countFalse gC9w.prizes = gC9w.nGoats ∧
     countTrue gC9w.prizes = gC9w.nDoors - gC9w.nGoats) ∧
    (okGame (choose gC9a "random" rC9a)).prizes = gC9a.prizes ∧
    (revGame (reveal gC8 "goat" [0])).prizes = gC8.prizes :=
  ⟨c9_prizes_invariant.1 (some 3) (some 2) none streamC9 gC9a rC9a "stay"
     "goat" 5 gC9w (playWin (play gC9a "stay" "goat" 5 rC9a))
     (playRng (play gC9a "stay" "goat" 5 rC9a)) rfl rfl,
   c9_prizes_invariant.2.1 gC9a "random" rC9a
     (okGame (choose gC9a "random" rC9a))
     (okRng (choose gC9a "random" rC9a)) rfl,
   c9_prizes_invariant.2.2 gC8 "goat" [0] false
     (revGame (reveal gC8 "goat" [0]))
     (revRng (reveal gC8 "goat" [0])) rfl⟩

/-- Claim C10: `simulate(0)` behaves exactly like `simulate()` with the
argument unset — `n = n or self.config['games']` treats 0 as falsy — and
runs the configured number of trials. -/
theorem c10_simulate_zero (cfg : Config) (fuel : Nat) (st : SeriesState)
    (r : Rng) :
    simulate cfg (some 0) fuel st r = simulate cfg none fuel st r ∧
    simulate cfg (some 0) fuel st r = simulateLoop cfg fuel cfg.games st r :=
  ⟨rfl, rfl⟩

end MontyHall
